import Mathlib

/-!
Shallow embedding of the JSON-RPC calculator (Go sources: the message model
and parser, `server.go`, the calculator handlers) and proofs about the
claims of the specification.

Conventions of the embedding:
* JSON documents are modelled by the inductive `JSON`; Go's `interface{}`
  holding a decoded JSON value (or `nil`) is modelled by `Option JSON`
  (`none` = Go `nil`).
* Raw input bytes are modelled by `GoBytes`: either malformed (recording
  whether the first byte is the character left-bracket, which is all the code
  inspects about malformed bytes), or well-formed JSON with a flag recording
  whether whitespace precedes the first significant byte.
* Go numbers (`float64`) are modelled by `Rat`; no claim depends on
  floating-point rounding (the numbers exercised are small integers).
* `encoding/json` behaviours that the code relies on are modelled where
  observable: unmarshalling JSON `null` into a settable pointer field (the
  `ID *json.RawMessage` field) sets the pointer to nil; a JSON `null` for a
  non-pointer `json.RawMessage` field (`Params`) is stored as the raw bytes
  of `null`; a JSON `null` for a string field, or for the whole struct, is a
  no-op; any other type mismatch is a decode error; JSON object keys are
  matched to struct fields case-insensitively.
-/

set_option allowUnsafeReducibility true

attribute [local semireducible] Rat.add Rat.mul Rat.sub Rat.div Rat.inv Rat.neg

namespace JRPC

/-- ASCII lower-casing of a key, modelling the case folding `encoding/json`
uses when matching JSON object keys to struct field tags. -/
def asciiLower (s : String) : String :=
  String.mk (s.data.map Char.toLower)

/-- A JSON document/value. Objects are ordered association lists, as decoded
from the wire; the facts proved below about objects are stated for objects
whose (case-folded) keys are distinct, where this list representation and
Go's map representation of a decoded object agree. -/
inductive JSON where
  | null
  | bool (b : Bool)
  | num (q : ℚ)
  | str (s : String)
  | arr (elems : List JSON)
  | obj (fields : List (String × JSON))


/-- Go: `const JSONRPCVersion = "2.0"` -/
def JSONRPCVersion : String := "2.0"

/-- Go struct `JSONRPCError` (`code`, `message`, optional `data`). -/
structure JSONRPCError where
  code : Int
  message : String
  data : Option JSON


/-- Go struct `JSONRPCRequest` (`jsonrpc`, `method`, optional `params`,
`id`); `Params` and `ID` are `interface{}` values. -/
structure JSONRPCRequest where
  jsonrpc : String
  method : String
  params : Option JSON
  id : Option JSON


/-- Go struct `JSONRPCNotification` (`jsonrpc`, `method`, optional `params`). -/
structure JSONRPCNotification where
  jsonrpc : String
  method : String
  params : Option JSON


/-- Go struct `JSONRPCResponse` (`jsonrpc`, `result` with `omitempty`,
`error` pointer with `omitempty`, `id`). -/
structure JSONRPCResponse where
  jsonrpc : String
  result : Option JSON
  error : Option JSONRPCError
  id : Option JSON


/-- Standard JSON-RPC error codes (Go `const` block). -/
def ParseError : Int := -32700

def InvalidRequest : Int := -32600

def MethodNotFound : Int := -32601

def InvalidParams : Int := -32602

def InternalError : Int := -32603

/-- The value `ParseSingleMessage` returns through `interface{}`: either a
request or a notification. -/
inductive Message where
  | request (r : JSONRPCRequest)
  | notification (n : JSONRPCNotification)


/-- The value `ParseMessage` returns through `interface{}`: a single message
or a batch (`[]interface{}`). -/
inductive Parsed where
  | single (m : Message)
  | batch (msgs : List Message)


/-- Raw input bytes, as far as the code observes them: `malformed f` stands
for bytes that are not a well-formed JSON document, `f` recording whether
the first byte is the left-bracket character; `wf ws j` stands for a
well-formed document for the value `j`, `ws` recording whether whitespace
precedes the first significant byte (so the first byte is left-bracket
exactly when `ws = false` and `j` is an array). -/
inductive GoBytes where
  | malformed (firstIsLBracket : Bool)
  | wf (leadingWs : Bool) (j : JSON)


/-- Go: `len(data) > 0 && data[0] == '['`. -/
def firstByteIsLBracket : GoBytes → Bool
  | .malformed f => f
  | .wf ws j => !ws && (match j with | .arr _ => true | _ => false)

/-- The anonymous struct inside `ParseSingleMessage`:
`jsonrpc string; method string; params json.RawMessage; id *json.RawMessage`.
`params = some v` models a non-nil `RawMessage` holding the bytes of `v`
(a JSON `null` value included); `id = some v` models a non-nil pointer. -/
structure RawSingle where
  jsonrpc : String
  method : String
  params : Option JSON
  id : Option JSON


instance : Inhabited RawSingle := ⟨⟨"", "", none, none⟩⟩

/-- The struct fields of `RawSingle`, as decode targets. -/
inductive RawField where
  | jsonrpc
  | method
  | params
  | id


/-- Which struct field a JSON object key selects: `encoding/json` matches
the json tag, falling back to a case-insensitive match. -/
def rawFieldOf (k : String) : Option RawField :=
  let l := asciiLower k
  if l = "jsonrpc" then some .jsonrpc
  else if l = "method" then some .method
  else if l = "params" then some .params
  else if l = "id" then some .id
  else none

/-- Store one decoded object member into the `RawSingle` struct, following
`encoding/json`:
* a string value for a string field is stored; a `null` is a no-op; any
  other value is a type error;
* any value for the `params` field (`json.RawMessage`) is kept as raw
  bytes, a `null` value included (the `RawMessage` unmarshaller copies the
  bytes verbatim);
* a `null` for the `id` field (`*json.RawMessage`, a settable pointer)
  sets the pointer to nil; any other value is kept. -/
def setRawField : RawSingle → RawField → JSON → Except Unit RawSingle
  | r, .jsonrpc, .str s => .ok { r with jsonrpc := s }
  | r, .jsonrpc, .null => .ok r
  | _, .jsonrpc, _ => .error ()
  | r, .method, .str s => .ok { r with method := s }
  | r, .method, .null => .ok r
  | _, .method, _ => .error ()
  | r, .params, v => .ok { r with params := some v }
  | r, .id, .null => .ok { r with id := none }
  | r, .id, v => .ok { r with id := some v }

/-- One member of the `RawSingle` object decode (unknown keys ignored). -/
def rawStep (r : RawSingle) (kv : String × JSON) : Except Unit RawSingle :=
  match rawFieldOf kv.1 with
  | some f => setRawField r f kv.2
  | none => .ok r

/-- The member loop of the `RawSingle` object decode: later members
overwrite earlier ones; a member of the wrong type fails the decode. -/
def rawFold : RawSingle → List (String × JSON) → Except Unit RawSingle
  | r, [] => .ok r
  | r, kv :: rest =>
      match rawStep r kv with
      | .error e => .error e
      | .ok r2 => rawFold r2 rest

/-- `json.Unmarshal(data, &raw)` for the `RawSingle` struct: a JSON object
is decoded member by member; a JSON `null` document is a no-op; any other
document is a type error. -/
def decodeRawSingle : JSON → Except Unit RawSingle
  | .null => .ok ⟨"", "", none, none⟩
  | .obj fields => rawFold ⟨"", "", none, none⟩ fields
  | _ => .error ()

/-- Stand-in for the message text of an `encoding/json` decode error (the
code only forwards it as diagnostic `data`; no claim inspects the text). -/
def goUnmarshalErrMsg : String := "json: cannot unmarshal value"

/-- `json.Unmarshal(raw, &v)` for `v interface{}` on well-formed bytes:
a `null` document yields the nil interface, anything else the value
itself. This never fails, so the `Invalid params field` and `Invalid ID
field` branches of `ParseSingleMessage` are unreachable. -/
def decodeIface : JSON → Option JSON
  | .null => none
  | v => some v

/-- The single-message parse path of `ParseSingleMessage`, applied to a
well-formed document (Go lines: unmarshal into the raw struct, validate
`jsonrpc`, validate `method`, decode `params`, then classify by `id`). -/
def parseSingleJSON (j : JSON) : Except JSONRPCError Message :=
  match decodeRawSingle j with
  | .error _ =>
      .error ⟨ParseError, "Parse error", some (.str goUnmarshalErrMsg)⟩
  | .ok raw =>
      if raw.jsonrpc ≠ JSONRPCVersion then
        .error ⟨InvalidRequest, "Invalid Request",
          some (.str "jsonrpc field must be 2.0")⟩
      else if raw.method = "" then
        .error ⟨InvalidRequest, "Invalid Request",
          some (.str "method field is required")⟩
      else
        let params : Option JSON := raw.params.bind decodeIface
        match raw.id with
        | some idRaw =>
            -- the id bytes decode into `interface{}`; they are never the
            -- `null` literal here (a null id already reset the pointer),
            -- so the decoded id is the value itself
            .ok (.request ⟨raw.jsonrpc, raw.method, params, some idRaw⟩)
        | none =>
            .ok (.notification ⟨raw.jsonrpc, raw.method, params⟩)

/-- Go `ParseSingleMessage(data []byte)`: malformed bytes fail with
`ParseError`; well-formed bytes take the single-message path (leading
whitespace is skipped by `json.Unmarshal`). -/
def ParseSingleMessage : GoBytes → Except JSONRPCError Message
  | .malformed _ =>
      .error ⟨ParseError, "Parse error", some (.str goUnmarshalErrMsg)⟩
  | .wf _ j => parseSingleJSON j

/-- The loop of `ParseMessage` over the raw batch elements: each element is
parsed by the single-message path, and the first failing element aborts
the whole batch (`return nil, err`). -/
def parseBatchElems : List JSON → Except JSONRPCError (List Message)
  | [] => .ok []
  | j :: rest =>
      match parseSingleJSON j with
      | .error e => .error e
      | .ok m =>
          match parseBatchElems rest with
          | .error e => .error e
          | .ok ms => .ok (m :: ms)

/-- Go `ParseMessage(data []byte)`: if the first byte is the left-bracket
character, decode as `[]json.RawMessage` and parse each element (aborting
on the first element error); otherwise parse as a single message. -/
def ParseMessage (b : GoBytes) : Except JSONRPCError Parsed :=
  if firstByteIsLBracket b then
    match b with
    | .wf _ (.arr elems) => (parseBatchElems elems).map .batch
    | _ =>
        -- malformed bytes: `json.Unmarshal` into `[]json.RawMessage` fails
        -- (a well-formed non-array document cannot reach this arm: its
        -- first byte is not the left-bracket character)
        .error ⟨ParseError, "Parse error", some (.str goUnmarshalErrMsg)⟩
  else
    (ParseSingleMessage b).map .single

/-- Go `CreateSuccessResponse`. -/
def CreateSuccessResponse (result : Option JSON) (id : Option JSON) :
    JSONRPCResponse :=
  { jsonrpc := JSONRPCVersion, result := result, error := none, id := id }

/-- Go `CreateErrorResponse`. -/
def CreateErrorResponse (err : JSONRPCError) (id : Option JSON) :
    JSONRPCResponse :=
  { jsonrpc := JSONRPCVersion, result := none, error := some err, id := id }

/-- Go struct `CalculatorParams` (fields `A`, `B` of type `float64`, json
tags `a`, `b`). -/
structure CalculatorParams where
  a : ℚ
  b : ℚ

instance : Inhabited CalculatorParams := ⟨⟨0, 0⟩⟩

/-- Go struct `LogParams` (field `Message`, json tag `message`). -/
structure LogParams where
  message : String

instance : Inhabited LogParams := ⟨⟨""⟩⟩

/-- Left-pad with zeroes to six digits. -/
def pad6 (n : Nat) : String :=
  let s := toString n
  String.mk (List.replicate (6 - s.length) '0') ++ s

/-- `fmt.Sprintf` with the `%f` verb (six fraction digits) on the `Rat`
model of a `float64`: the value rounded to six decimal places. -/
def goFmtF (q : ℚ) : String :=
  let sign := if q < 0 then "-" else ""
  let scaled : ℚ := |q| * 1000000 + 1 / 2
  let r : Int := scaled.num / (scaled.den : Int)
  sign ++ toString (r / 1000000) ++ "." ++ pad6 (r % 1000000).toNat

namespace Calculator

/-- Go `Calculator.Add`: `params.A + params.B`, never fails. -/
def Add (p : CalculatorParams) : Except JSONRPCError ℚ :=
  .ok (p.a + p.b)

/-- Go `Calculator.Subtract`. -/
def Subtract (p : CalculatorParams) : Except JSONRPCError ℚ :=
  .ok (p.a - p.b)

/-- Go `Calculator.Multiply`. -/
def Multiply (p : CalculatorParams) : Except JSONRPCError ℚ :=
  .ok (p.a * p.b)

/-- Go `Calculator.Divide`: division-by-zero yields the application error
code -32000. -/
def Divide (p : CalculatorParams) : Except JSONRPCError ℚ :=
  if p.b = 0 then
    .error ⟨-32000, "Division by zero",
      some (.str ("Cannot divide " ++ goFmtF p.a ++ " by zero"))⟩
  else
    .ok (p.a / p.b)

/-- Go `Calculator.Log`: logs the message, returns nothing. -/
def Log (_ : LogParams) : Unit := ()

/-- Go `Calculator.GetInfo`: a fixed map and a nil error. The keys are
listed in the order `json.Marshal` emits map keys (sorted). -/
def GetInfo : Except JSONRPCError JSON :=
  .ok (.obj
    [("description", .str "A simple calculator implementing JSON-RPC 2.0"),
     ("methods", .arr [.str "add", .str "subtract", .str "multiply", .str "divide"]),
     ("name", .str "JSON-RPC Calculator"),
     ("version", .str "1.0")])

end Calculator

/-- The two decode targets of `CalculatorParams`. -/
inductive CalcField where
  | a
  | b
  deriving DecidableEq

/-- Which `CalculatorParams` field a JSON object key selects
(case-insensitive tag match, as `encoding/json` does). -/
def calcFieldOf (k : String) : Option CalcField :=
  let l := asciiLower k
  if l = "a" then some .a
  else if l = "b" then some .b
  else none

/-- Store one object member into `CalculatorParams`: a number is stored, a
`null` is a no-op, anything else is a type error (`float64` target). -/
def setCalcField : CalculatorParams → CalcField → JSON → Except Unit CalculatorParams
  | p, .a, .num q => .ok { p with a := q }
  | p, .a, .null => .ok p
  | _, .a, _ => .error ()
  | p, .b, .num q => .ok { p with b := q }
  | p, .b, .null => .ok p
  | _, .b, _ => .error ()

/-- One step of the `CalculatorParams` object decode (unknown keys are
ignored). -/
def calcStep (p : CalculatorParams) (kv : String × JSON) :
    Except Unit CalculatorParams :=
  match calcFieldOf kv.1 with
  | some f => setCalcField p f kv.2
  | none => .ok p

/-- The member loop of the `CalculatorParams` object decode. -/
def calcFold : CalculatorParams → List (String × JSON) → Except Unit CalculatorParams
  | p, [] => .ok p
  | p, kv :: rest =>
      match calcStep p kv with
      | .error e => .error e
      | .ok p2 => calcFold p2 rest

/-- `json.Unmarshal(paramBytes, &calcParams)`: an object is decoded member
by member with missing fields keeping the zero value `0`; a `null` document
is a no-op; any other document is a type error. -/
def decodeCalculatorParams : JSON → Except Unit CalculatorParams
  | .null => .ok ⟨0, 0⟩
  | .obj fields => calcFold ⟨0, 0⟩ fields
  | _ => .error ()

/-- One step of the `LogParams` object decode: a string for `message` is
stored, a `null` is a no-op, anything else is a type error. -/
def logStep (p : LogParams) (kv : String × JSON) : Except Unit LogParams :=
  if asciiLower kv.1 = "message" then
    match kv.2 with
    | .str s => .ok { message := s }
    | .null => .ok p
    | _ => .error ()
  else
    .ok p

/-- The member loop of the `LogParams` object decode. -/
def logFold : LogParams → List (String × JSON) → Except Unit LogParams
  | p, [] => .ok p
  | p, kv :: rest =>
      match logStep p kv with
      | .error e => .error e
      | .ok p2 => logFold p2 rest

/-- `json.Unmarshal(paramBytes, &logParams)`. -/
def decodeLogParams : JSON → Except Unit LogParams
  | .null => .ok ⟨""⟩
  | .obj fields => logFold ⟨""⟩ fields
  | _ => .error ()

/-- A Go `error` value as the dispatcher sees it: either already a
`*JSONRPCError` (the only kind this program ever produces) or any other
error, distinguished by the type assertion in `handleSingleRequest`. -/
inductive GoError where
  | rpc (e : JSONRPCError)
  | plain (msg : String)

/-- The `Invalid params` error for nil calculator params. -/
def calcParamsRequiredErr : JSONRPCError :=
  ⟨InvalidParams, "Invalid params",
    some (.str "Parameters required: \x7b\"a\": number, \"b\": number\x7d")⟩

/-- The `Invalid params` error for undecodable calculator params. -/
def calcParamsExpectedErr : JSONRPCError :=
  ⟨InvalidParams, "Invalid params",
    some (.str "Expected parameters: \x7b\"a\": number, \"b\": number\x7d")⟩

/-- Package a calculator method outcome the way the reflection call does:
`results[1]` non-nil becomes the returned `error` (always a
`*JSONRPCError` here), otherwise `results[0]` (a `float64`) is the result. -/
def liftCalcResult : Except JSONRPCError ℚ → Except GoError (Option JSON)
  | .error e => .error (.rpc e)
  | .ok q => .ok (some (.num q))

/-- Go `callCalculatorMethod(methodName, params)`. `json.Marshal` on an
already-decoded params value never fails, so the `Cannot marshal
parameters` branch is unreachable; the four method names passed by
`callMethod` are all valid on `Calculator` and each method follows the
`(result, error)` pattern, so the reflection `IsValid` and
return-value-count error branches are unreachable as well. -/
def callCalculatorMethod (methodName : String) (params : Option JSON) :
    Except GoError (Option JSON) :=
  match params with
  | none => .error (.rpc calcParamsRequiredErr)
  | some p =>
      match decodeCalculatorParams p with
      | .error _ => .error (.rpc calcParamsExpectedErr)
      | .ok cp =>
          match methodName with
          | "Add" => liftCalcResult (Calculator.Add cp)
          | "Subtract" => liftCalcResult (Calculator.Subtract cp)
          | "Multiply" => liftCalcResult (Calculator.Multiply cp)
          | "Divide" => liftCalcResult (Calculator.Divide cp)
          | _ =>
              .error (.rpc ⟨InternalError, "Internal error",
                some (.str ("Method " ++ methodName ++ " not found on calculator"))⟩)

/-- Go `callNotificationMethod(methodName, params)`: only `Log` exists;
on success it returns `(nil, nil)` — no result value. -/
def callNotificationMethod (methodName : String) (params : Option JSON) :
    Except GoError (Option JSON) :=
  match methodName with
  | "Log" =>
      match params with
      | none =>
          .error (.rpc ⟨InvalidParams, "Invalid params",
            some (.str "Parameters required: \x7b\"message\": string\x7d")⟩)
      | some p =>
          match decodeLogParams p with
          | .error _ =>
              .error (.rpc ⟨InvalidParams, "Invalid params",
                some (.str "Expected parameters: \x7b\"message\": string\x7d")⟩)
          | .ok lp =>
              let _ := Calculator.Log lp
              .ok none
  | _ =>
      .error (.rpc ⟨MethodNotFound, "Method not found",
        some (.str ("Notification method \x27" ++ methodName ++ "\x27 is not available"))⟩)

/-- Go `callMethod(method, params)`: the fixed method table. -/
def callMethod (method : String) (params : Option JSON) :
    Except GoError (Option JSON) :=
  match method with
  | "add" => callCalculatorMethod "Add" params
  | "subtract" => callCalculatorMethod "Subtract" params
  | "multiply" => callCalculatorMethod "Multiply" params
  | "divide" => callCalculatorMethod "Divide" params
  | "getInfo" =>
      match Calculator.GetInfo with
      | .error e => .error (.rpc e)
      | .ok info => .ok (some info)
  | "log" => callNotificationMethod "Log" params
  | _ =>
      .error (.rpc ⟨MethodNotFound, "Method not found",
        some (.str ("Method \x27" ++ method ++ "\x27 is not available"))⟩)

/-- Go `handleSingleRequest(req)`: route the call; an error that is already
a `*JSONRPCError` is carried as-is, any other error is wrapped into
`InternalError`; the id is always the request id. -/
def handleSingleRequest (req : JSONRPCRequest) : JSONRPCResponse :=
  match callMethod req.method req.params with
  | .error (.rpc e) => CreateErrorResponse e req.id
  | .error (.plain m) =>
      CreateErrorResponse ⟨InternalError, "Internal error", some (.str m)⟩ req.id
  | .ok result => CreateSuccessResponse result req.id

/-- Go `handleNotification(notif)`: the method is called and any result or
error is discarded (only logged). -/
def handleNotification (n : JSONRPCNotification) : Unit :=
  let _ := callMethod n.method n.params
  ()

/-- `json.Marshal` of a `JSONRPCError` (field order `code`, `message`,
`data`; `data` has `omitempty` and a nil interface is omitted). -/
def marshalError (e : JSONRPCError) : JSON :=
  .obj ([("code", .num (e.code : ℚ)), ("message", .str e.message)] ++
    (match e.data with
     | none => []
     | some d => [("data", d)]))

/-- `json.Marshal` of a `JSONRPCResponse` (field order `jsonrpc`, `result`,
`error`, `id`): `result` has `omitempty` — a nil interface is omitted, any
other value kept; a nil `error` pointer is omitted; `id` has no `omitempty`
and a nil id marshals as `null`. -/
def marshalResponse (r : JSONRPCResponse) : JSON :=
  .obj ([("jsonrpc", .str r.jsonrpc)] ++
    (match r.result with
     | none => []
     | some v => [("result", v)]) ++
    (match r.error with
     | none => []
     | some e => [("error", marshalError e)]) ++
    [("id", r.id.getD .null)])

/-- The loop of `handleBatchRequest`: requests append their response to the
slice, notifications are handled and contribute nothing. -/
def batchResponses (messages : List Message) : List JSONRPCResponse :=
  messages.foldl
    (fun acc m =>
      match m with
      | .request r => acc ++ [handleSingleRequest r]
      | .notification n =>
          let _ := handleNotification n
          acc)
    []

/-- Go `handleBatchRequest(messages)`: if no responses accumulated (all
elements were notifications) return nil bytes, else marshal the slice. -/
def handleBatchRequest (messages : List Message) : Option JSON :=
  let responses := batchResponses messages
  if responses.isEmpty then none
  else some (.arr (responses.map marshalResponse))

/-- Go `HandleRequest(data)`: parse, then dispatch by shape. The output is
the marshalled response document, or `none` for the nil-bytes no-response
outcome. `json.Marshal` never fails on these values, so the Go `error`
result is always nil; the `default` arm of the type switch is unreachable
(`ParseMessage` only produces the three shapes matched). -/
def HandleRequest (b : GoBytes) : Option JSON :=
  match ParseMessage b with
  | .error e =>
      -- parse error: the id is unknowable, use null
      some (marshalResponse (CreateErrorResponse e none))
  | .ok (.batch msgs) => handleBatchRequest msgs
  | .ok (.single (.request r)) => some (marshalResponse (handleSingleRequest r))
  | .ok (.single (.notification n)) =>
      let _ := handleNotification n
      none

/-! ## Support definitions for the claim statements -/

/-- A canonical single-message document: `jsonrpc` fixed to `"2.0"`, the
given method, then optional `params` and `id` members. General objects
differ from this canonical form only in member order, duplicate keys, or
case-folded key spellings. -/
def mkSingleDoc (m : String) (p idv : Option JSON) : JSON :=
  .obj ([("jsonrpc", .str "2.0"), ("method", .str m)] ++
    (match p with
     | none => []
     | some v => [("params", v)]) ++
    (match idv with
     | none => []
     | some v => [("id", v)]))

/-- The requests of a parsed batch, in order. -/
def requestsOf (msgs : List Message) : List JSONRPCRequest :=
  msgs.filterMap (fun m =>
    match m with
    | .request r => some r
    | .notification _ => none)

/-- Is an object member harmless for the `CalculatorParams` decode: its key
selects no field, or its value is a number or `null`. -/
def calcEntryOK (kv : String × JSON) : Bool :=
  match calcFieldOf kv.1 with
  | none => true
  | some _ =>
      match kv.2 with
      | .num _ => true
      | .null => true
      | _ => false

/-- The numeric values among the members selecting field `f`, in order
(later members overwrite earlier ones, and `null` members are no-ops, so
the decoded field is the last of these, defaulting to `0`). -/
def numsFor (f : CalcField) (o : List (String × JSON)) : List ℚ :=
  o.filterMap (fun kv =>
    match calcFieldOf kv.1, kv.2 with
    | some f2, .num q => if f2 = f then some q else none
    | _, _ => none)

/-- The decoded `a` field of a params object. -/
def aOf (o : List (String × JSON)) : ℚ :=
  (numsFor .a o).getLastD 0

/-- The decoded `b` field of a params object. -/
def bOf (o : List (String × JSON)) : ℚ :=
  (numsFor .b o).getLastD 0

/-- Is the document a JSON object or `null` (the two document shapes the
`CalculatorParams` decode accepts). -/
def isObjOrNull : JSON → Bool
  | .obj _ => true
  | .null => true
  | _ => false

/-- The calculator handler a lowercase method name routes to (the
`callMethod` table restricted to the four arithmetic methods). -/
def calcHandlerFor : String → CalculatorParams → Except JSONRPCError ℚ
  | "add", p => Calculator.Add p
  | "subtract", p => Calculator.Subtract p
  | "multiply", p => Calculator.Multiply p
  | "divide", p => Calculator.Divide p
  | _, _ => .error ⟨InternalError, "Internal error", none⟩

/-- The four arithmetic method names. -/
def calcMethods : List String := ["add", "subtract", "multiply", "divide"]

/-! ## Helper lemmas -/

theorem decodeRawSingle_mkSingleDoc_noid (m : String) (p : Option JSON) :
    decodeRawSingle (mkSingleDoc m p none) = .ok ⟨"2.0", m, p, none⟩ := by
  cases p <;> rfl

theorem decodeRawSingle_mkSingleDoc_nullid (m : String) (p : Option JSON) :
    decodeRawSingle (mkSingleDoc m p (some .null)) = .ok ⟨"2.0", m, p, none⟩ := by
  cases p <;> rfl

theorem decodeRawSingle_mkSingleDoc_nonnull (m : String) (p : Option JSON)
    (v : JSON) (hv : v ≠ .null) :
    decodeRawSingle (mkSingleDoc m p (some v)) = .ok ⟨"2.0", m, p, some v⟩ := by
  cases v
  case null => exact absurd rfl hv
  all_goals cases p <;> rfl

/-- Claim C1, counterexample: a single message that is valid JSON with
jsonrpc `"2.0"`, a non-empty method, and the `id` key present with an
explicit `null` value is classified as a Notification, not a Request
(unmarshalling the `null` resets the `ID` pointer to nil). -/
theorem parse_null_id_is_notification :
    ParseSingleMessage (.wf false (.obj
      [("jsonrpc", .str "2.0"), ("method", .str "ping"), ("id", .null)]))
      = .ok (.notification ⟨"2.0", "ping", none⟩) := rfl

/-- Claim C1 (amended): for a valid single message with jsonrpc `"2.0"` and
a non-empty method, presence of the `id` key with a non-null value selects
Request (carrying that id); absence of the `id` key, or presence with an
explicit `null` value, selects Notification. -/
theorem parse_request_iff_nonnull_id_present (m : String) (hm : m ≠ "")
    (p : Option JSON) :
    (ParseSingleMessage (.wf false (mkSingleDoc m p none)) =
        .ok (.notification ⟨"2.0", m, p.bind decodeIface⟩))
    ∧ (∀ v : JSON, v ≠ .null →
        ParseSingleMessage (.wf false (mkSingleDoc m p (some v))) =
          .ok (.request ⟨"2.0", m, p.bind decodeIface, some v⟩))
    ∧ (ParseSingleMessage (.wf false (mkSingleDoc m p (some .null))) =
        .ok (.notification ⟨"2.0", m, p.bind decodeIface⟩)) := by
  refine ⟨?_, ?_, ?_⟩
  · simp only [ParseSingleMessage, parseSingleJSON, decodeRawSingle_mkSingleDoc_noid]
    simp [JSONRPCVersion, hm]
  · intro v hv
    simp only [ParseSingleMessage, parseSingleJSON,
      decodeRawSingle_mkSingleDoc_nonnull m p v hv]
    simp [JSONRPCVersion, hm]
  · simp only [ParseSingleMessage, parseSingleJSON, decodeRawSingle_mkSingleDoc_nullid]
    simp [JSONRPCVersion, hm]

/-- Witness for `parse_request_iff_nonnull_id_present` at a concrete
method, params and id. -/
theorem parse_request_iff_nonnull_id_present_witness :
    ParseSingleMessage (.wf false (mkSingleDoc "ping" none (some (.num 1)))) =
      .ok (.request ⟨"2.0", "ping", none, some (.num 1)⟩) :=
  (parse_request_iff_nonnull_id_present "ping" (by decide) none).2.1
    (.num 1) (fun h => JSON.noConfusion h)

/-- Claim C3, counterexample: the input has jsonrpc `"1.0"` and a present,
decodable id `3`, yet the emitted InvalidRequest error Response carries
`id = null` instead of echoing `3`. -/
theorem invalid_request_with_id_gets_null_id :
    HandleRequest (.wf false (.obj
      [("jsonrpc", .str "1.0"), ("method", .str "add"), ("id", .num 3)]))
      = some (.obj [("jsonrpc", .str "2.0"),
          ("error", .obj [("code", .num (-32600)), ("message", .str "Invalid Request"),
            ("data", .str "jsonrpc field must be 2.0")]),
          ("id", .null)]) := rfl

/-- Claim C3 (amended): every parser or protocol-validation failure
produces an error Response whose id is null, even when the input carries a
present, decodable id — the id is never echoed on such failures. -/
theorem parse_failure_response_id_null (b : GoBytes) (e : JSONRPCError)
    (h : ParseMessage b = .error e) :
    HandleRequest b = some (marshalResponse (CreateErrorResponse e none)) := by
  simp [HandleRequest, h]

/-- Witness for `parse_failure_response_id_null` at the jsonrpc-1.0 input
with id 3. -/
theorem parse_failure_response_id_null_witness :
    HandleRequest (.wf false (.obj
      [("jsonrpc", .str "1.0"), ("method", .str "add"), ("id", .num 3)]))
      = some (marshalResponse (CreateErrorResponse
          ⟨InvalidRequest, "Invalid Request", some (.str "jsonrpc field must be 2.0")⟩
          none)) :=
  parse_failure_response_id_null _ _ rfl

/-- Claim C4: the Response `handleSingleRequest` builds carries exactly the
request's id, in the success outcome and in both error outcomes. -/
theorem response_id_equals_request_id (req : JSONRPCRequest) :
    (handleSingleRequest req).id = req.id := by
  rcases hc : callMethod req.method req.params with e | r
  · cases e with
    | rpc e0 => simp [handleSingleRequest, hc, CreateErrorResponse]
    | plain msg => simp [handleSingleRequest, hc, CreateErrorResponse]
  · simp [handleSingleRequest, hc, CreateSuccessResponse]

/-- Claim C5: an input that parses to a single Notification produces no
response bytes from `HandleRequest`, whatever the handler outcome. -/
theorem notification_no_response (b : GoBytes) (n : JSONRPCNotification)
    (h : ParseMessage b = .ok (.single (.notification n))) :
    HandleRequest b = none := by
  simp [HandleRequest, h]

/-- Witness for `notification_no_response`: a `log` notification with no
params (the handler fails with InvalidParams, which is swallowed). -/
theorem notification_no_response_witness :
    HandleRequest (.wf false (.obj
      [("jsonrpc", .str "2.0"), ("method", .str "log")])) = none :=
  notification_no_response _ ⟨"2.0", "log", none⟩ rfl

theorem parseBatchElems_append_err (pre : List JSON) (j : JSON)
    (post : List JSON) (e : JSONRPCError)
    (hpre : ∀ x ∈ pre, ∃ msg, parseSingleJSON x = .ok msg)
    (hj : parseSingleJSON j = .error e) :
    parseBatchElems (pre ++ j :: post) = .error e := by
  induction pre with
  | nil => simp [parseBatchElems, hj]
  | cons x xs ih =>
      obtain ⟨msg, hx⟩ := hpre x (List.mem_cons_self x xs)
      have ih2 := ih (fun y hy => hpre y (List.mem_cons_of_mem x hy))
      simp [parseBatchElems, hx, ih2]

/-- Claim C2, counterexample: in the batch `[1, goodRequest]` the first
element fails the single-message parse, and the whole batch parse aborts
with that error — the well-formed second element is not parsed to its own
entry, and no per-element error entries exist. -/
theorem batch_element_error_aborts_concrete :
    ParseMessage (.wf false (.arr [.num 1,
      .obj [("jsonrpc", .str "2.0"), ("method", .str "add"), ("id", .num 1)]]))
      = .error ⟨ParseError, "Parse error", some (.str goUnmarshalErrMsg)⟩ := rfl

/-- Claim C2 (amended): if any element of a batch fails the single-message
parse, the whole batch parse fails with the first failing element's error;
the other elements produce no Request, Notification or error entries. -/
theorem batch_aborts_on_first_element_error (pre : List JSON) (j : JSON)
    (post : List JSON) (e : JSONRPCError)
    (hpre : ∀ x ∈ pre, ∃ msg, parseSingleJSON x = .ok msg)
    (hj : parseSingleJSON j = .error e) :
    ParseMessage (.wf false (.arr (pre ++ j :: post))) = .error e := by
  have h := parseBatchElems_append_err pre j post e hpre hj
  simp [ParseMessage, firstByteIsLBracket, h, Except.map]

/-- Witness for `batch_aborts_on_first_element_error`: one good element
before, a number where an object is required, one element after. -/
theorem batch_aborts_on_first_element_error_witness :
    ParseMessage (.wf false (.arr
      ([.obj [("jsonrpc", .str "2.0"), ("method", .str "ping"), ("id", .num 1)]]
        ++ .num 3 :: [.bool true])))
      = .error ⟨ParseError, "Parse error", some (.str goUnmarshalErrMsg)⟩ :=
  batch_aborts_on_first_element_error _ _ _ _
    (by
      intro x hx
      rw [List.mem_singleton.mp hx]
      exact ⟨_, rfl⟩)
    rfl

theorem batchResponses_eq (msgs : List Message) :
    batchResponses msgs = (requestsOf msgs).map handleSingleRequest := by
  suffices h : ∀ acc : List JSONRPCResponse,
      List.foldl
        (fun acc m =>
          match m with
          | .request r => acc ++ [handleSingleRequest r]
          | .notification n =>
              let _ := handleNotification n
              acc)
        acc msgs = acc ++ (requestsOf msgs).map handleSingleRequest by
    simpa [batchResponses] using h []
  induction msgs with
  | nil => intro acc; simp [requestsOf]
  | cons m rest ih =>
      intro acc
      cases m with
      | request r => simp [requestsOf, List.filterMap_cons, ih]
      | notification n => simp [requestsOf, List.filterMap_cons, ih]

/-- Claim C6: for every parsed batch, dispatch yields exactly one Response
per Request element, in the requests' order (notifications contribute
nothing); when no responses accumulated (an all-notification batch) it
signals no response instead of an empty array. -/
theorem batch_one_response_per_request (msgs : List Message) :
    handleBatchRequest msgs =
      if (requestsOf msgs).isEmpty then none
      else some (.arr (((requestsOf msgs).map handleSingleRequest).map marshalResponse)) := by
  simp only [handleBatchRequest, batchResponses_eq]
  cases requestsOf msgs <;> simp [List.isEmpty]

/-- Claim C7, counterexample: the `log` method invoked as a Request (with
an id) succeeds with no result value, and the emitted Response carries
neither a `result` nor an `error` member. -/
theorem log_request_neither_result_nor_error :
    HandleRequest (.wf false (.obj
      [("jsonrpc", .str "2.0"), ("method", .str "log"),
       ("params", .obj [("message", .str "hi")]), ("id", .num 1)]))
      = some (.obj [("jsonrpc", .str "2.0"), ("id", .num 1)]) := rfl

/-- Claim C7 (amended): a Response never carries both a result and an
error; it carries exactly one of them unless the handler succeeds with no
result value (as the `log` method does when invoked as a Request), in
which case it carries neither. -/
theorem response_result_error_exclusive (req : JSONRPCRequest) :
    ((handleSingleRequest req).result = none ∨ (handleSingleRequest req).error = none)
    ∧ (((handleSingleRequest req).result = none ∧ (handleSingleRequest req).error = none)
        ↔ callMethod req.method req.params = .ok none) := by
  rcases hc : callMethod req.method req.params with e | r
  · cases e with
    | rpc e0 => simp [handleSingleRequest, hc, CreateErrorResponse]
    | plain msg => simp [handleSingleRequest, hc, CreateErrorResponse]
  · cases r <;> simp [handleSingleRequest, hc, CreateSuccessResponse]

/-- Claim C8: the divide-by-zero request yields an error Response with
code -32000 and id 2; in general, an error that is already a
`*JSONRPCError` (a handler's explicit protocol-level error) is carried
verbatim in the Response together with the request's id. -/
theorem divide_by_zero_error_verbatim :
    (HandleRequest (.wf false (.obj
      [("jsonrpc", .str "2.0"), ("method", .str "divide"),
       ("params", .obj [("a", .num 5), ("b", .num 0)]), ("id", .num 2)]))
      = some (.obj [("jsonrpc", .str "2.0"),
          ("error", .obj [("code", .num (-32000)), ("message", .str "Division by zero"),
            ("data", .str "Cannot divide 5.000000 by zero")]),
          ("id", .num 2)]))
    ∧ ∀ (req : JSONRPCRequest) (e : JSONRPCError),
        callMethod req.method req.params = .error (.rpc e) →
        handleSingleRequest req = CreateErrorResponse e req.id := by
  refine ⟨rfl, ?_⟩
  intro req e h
  simp [handleSingleRequest, h]

/-- Witness for the verbatim-error part of `divide_by_zero_error_verbatim`
at the divide-by-zero request. -/
theorem divide_by_zero_error_verbatim_witness :
    handleSingleRequest
      ⟨"2.0", "divide", some (.obj [("a", .num 5), ("b", .num 0)]), some (.num 2)⟩
      = CreateErrorResponse
          ⟨-32000, "Division by zero", some (.str "Cannot divide 5.000000 by zero")⟩
          (some (.num 2)) :=
  divide_by_zero_error_verbatim.2 _ _ rfl

/-- Claim C9, counterexample: an input whose first non-whitespace byte is
the left-bracket character but which starts with whitespace is NOT treated
as a batch: the single-message path rejects the array document with a
ParseError instead of decoding the batch. -/
theorem leading_ws_batch_not_batch :
    ParseMessage (.wf true (.arr
      [.obj [("jsonrpc", .str "2.0"), ("method", .str "add"), ("id", .num 1)]]))
      = .error ⟨ParseError, "Parse error", some (.str goUnmarshalErrMsg)⟩ := rfl

/-- Claim C9 (amended): a batch is recognized only when the very first
byte of the input is the left-bracket character; an array document behind
leading whitespace takes the single-message path (and fails with
ParseError), and every input whose first byte is not the left-bracket
character is parsed as a single message. -/
theorem batch_iff_first_byte_lbracket :
    (∀ elems : List JSON,
        ParseMessage (.wf false (.arr elems)) = (parseBatchElems elems).map .batch)
    ∧ (∀ elems : List JSON,
        ParseMessage (.wf true (.arr elems)) =
          .error ⟨ParseError, "Parse error", some (.str goUnmarshalErrMsg)⟩)
    ∧ (∀ b : GoBytes, firstByteIsLBracket b = false →
        ParseMessage b = (ParseSingleMessage b).map .single) := by
  refine ⟨fun _ => rfl, fun _ => rfl, ?_⟩
  intro b h
  simp [ParseMessage, h]

/-- Witness for the single-message part of `batch_iff_first_byte_lbracket`
at an empty-object input. -/
theorem batch_iff_first_byte_lbracket_witness :
    ParseMessage (.wf false (.obj [])) =
      (ParseSingleMessage (.wf false (.obj []))).map .single :=
  batch_iff_first_byte_lbracket.2.2 _ rfl

theorem numsFor_cons_none (f : CalcField) (k : String) (v : JSON)
    (rest : List (String × JSON)) (h : calcFieldOf k = none) :
    numsFor f ((k, v) :: rest) = numsFor f rest := by
  simp [numsFor, List.filterMap_cons, h]

theorem numsFor_cons_null (f : CalcField) (k : String)
    (rest : List (String × JSON)) :
    numsFor f ((k, .null) :: rest) = numsFor f rest := by
  rcases h : calcFieldOf k with _ | f2 <;> simp [numsFor, List.filterMap_cons, h]

theorem numsFor_cons_num_same (f : CalcField) (k : String) (q : ℚ)
    (rest : List (String × JSON)) (h : calcFieldOf k = some f) :
    numsFor f ((k, .num q) :: rest) = q :: numsFor f rest := by
  simp [numsFor, List.filterMap_cons, h]

theorem numsFor_cons_num_other (f f2 : CalcField) (k : String) (q : ℚ)
    (rest : List (String × JSON)) (h : calcFieldOf k = some f2) (hne : f2 ≠ f) :
    numsFor f ((k, .num q) :: rest) = numsFor f rest := by
  simp [numsFor, List.filterMap_cons, h, hne]

theorem calcFold_ok (o : List (String × JSON)) (p : CalculatorParams)
    (h : ∀ kv ∈ o, calcEntryOK kv = true) :
    calcFold p o = .ok ⟨(numsFor .a o).getLastD p.a, (numsFor .b o).getLastD p.b⟩ := by
  induction o generalizing p with
  | nil => simp [calcFold, numsFor]
  | cons kv rest ih =>
      obtain ⟨k, v⟩ := kv
      have hkv : calcEntryOK (k, v) = true := h (k, v) (List.mem_cons_self _ _)
      have hrest : ∀ x ∈ rest, calcEntryOK x = true :=
        fun x hx => h x (List.mem_cons_of_mem _ hx)
      rcases hf : calcFieldOf k with _ | f
      · simp only [calcFold, calcStep, hf]
        rw [ih p hrest, numsFor_cons_none _ _ _ _ hf, numsFor_cons_none _ _ _ _ hf]
      · rcases f with _ | _ <;> cases v <;>
            simp only [calcEntryOK, hf] at hkv <;>
            simp only [calcFold, calcStep, setCalcField, hf] <;>
            try exact Bool.noConfusion hkv
        · rw [ih p hrest, numsFor_cons_null, numsFor_cons_null]
        · rename_i q
          rw [ih _ hrest, numsFor_cons_num_same _ _ _ _ hf,
            numsFor_cons_num_other .b .a _ q _ hf (fun hab => CalcField.noConfusion hab),
            List.getLastD_cons]
        · rw [ih p hrest, numsFor_cons_null, numsFor_cons_null]
        · rename_i q
          rw [ih _ hrest, numsFor_cons_num_same _ _ _ _ hf,
            numsFor_cons_num_other .a .b _ q _ hf (fun hab => CalcField.noConfusion hab),
            List.getLastD_cons]

theorem calcFold_err (o : List (String × JSON)) (p : CalculatorParams)
    (h : ∃ kv ∈ o, calcEntryOK kv = false) :
    calcFold p o = .error () := by
  induction o generalizing p with
  | nil => simp at h
  | cons kv rest ih =>
      obtain ⟨kv0, hmem, hbad⟩ := h
      rcases List.mem_cons.mp hmem with rfl | hmem2
      · obtain ⟨k0, v0⟩ := kv0
        have hstep : calcStep p (k0, v0) = .error () := by
          rcases hf : calcFieldOf k0 with _ | f
          · simp [calcEntryOK, hf] at hbad
          · rcases f with _ | _ <;> cases v0 <;>
              simp_all [calcEntryOK, calcStep, setCalcField, hf]
        simp [calcFold, hstep]
      · rcases hstep : calcStep p kv with u | p2
        · simp [calcFold, hstep]
        · simpa [calcFold, hstep] using ih p2 ⟨kv0, hmem2, hbad⟩

/-- Claim C10, counterexample: for `divide` with params missing the `b`
key, decoding succeeds with `b` defaulted to `0`, but the handler then
returns its division-by-zero error (-32000) — not a normal result (and
still not InvalidParams). -/
theorem divide_missing_b_domain_error :
    callMethod "divide" (some (.obj [("a", .num 5)]))
      = .error (.rpc ⟨-32000, "Division by zero",
          some (.str "Cannot divide 5.000000 by zero")⟩) := rfl

/-- Claim C10 (amended): for the four arithmetic methods, a params object
whose `a`/`b` members (if any) are numeric decodes successfully — missing
fields default to `0`, extra keys are ignored — and the handler runs on
the decoded values (for `divide` with a defaulted `b = 0` this yields its
division-by-zero error, not InvalidParams); InvalidParams is returned
exactly when params is absent, not an object (`null` aside), or has an
`a`/`b` member that is neither a number nor `null`. -/
theorem calc_params_decode_behavior :
    (∀ m ∈ calcMethods, ∀ o : List (String × JSON),
        (∀ kv ∈ o, calcEntryOK kv = true) →
        decodeCalculatorParams (.obj o) = .ok ⟨aOf o, bOf o⟩
        ∧ callMethod m (some (.obj o)) = liftCalcResult (calcHandlerFor m ⟨aOf o, bOf o⟩))
    ∧ (∀ m ∈ calcMethods, callMethod m none = .error (.rpc calcParamsRequiredErr))
    ∧ (∀ m ∈ calcMethods, ∀ j : JSON, isObjOrNull j = false →
        callMethod m (some j) = .error (.rpc calcParamsExpectedErr))
    ∧ (∀ m ∈ calcMethods, ∀ o : List (String × JSON),
        (∃ kv ∈ o, calcEntryOK kv = false) →
        callMethod m (some (.obj o)) = .error (.rpc calcParamsExpectedErr)) := by
  have hmem : ∀ m ∈ calcMethods,
      m = "add" ∨ m = "subtract" ∨ m = "multiply" ∨ m = "divide" := by
    intro m hm
    simpa [calcMethods] using hm
  have hdec : ∀ o : List (String × JSON), (∀ kv ∈ o, calcEntryOK kv = true) →
      decodeCalculatorParams (.obj o) = .ok ⟨aOf o, bOf o⟩ := by
    intro o ho
    show calcFold ⟨0, 0⟩ o = _
    rw [calcFold_ok o ⟨0, 0⟩ ho]
    rfl
  refine ⟨?_, ?_, ?_, ?_⟩
  · intro m hm o ho
    refine ⟨hdec o ho, ?_⟩
    rcases hmem m hm with rfl | rfl | rfl | rfl <;>
      simp [callMethod, callCalculatorMethod, hdec o ho, calcHandlerFor]
  · intro m hm
    rcases hmem m hm with rfl | rfl | rfl | rfl <;> rfl
  · intro m hm j hj
    have hdecj : decodeCalculatorParams j = .error () := by
      cases j
      case null => simp [isObjOrNull] at hj
      case obj => simp [isObjOrNull] at hj
      all_goals rfl
    rcases hmem m hm with rfl | rfl | rfl | rfl <;>
      simp [callMethod, callCalculatorMethod, hdecj]
  · intro m hm o ho
    have hdeco : decodeCalculatorParams (.obj o) = .error () := by
      show calcFold ⟨0, 0⟩ o = _
      exact calcFold_err o ⟨0, 0⟩ ho
    rcases hmem m hm with rfl | rfl | rfl | rfl <;>
      simp [callMethod, callCalculatorMethod, hdeco]

/-- Witness for `calc_params_decode_behavior`: one instance of each
conjunct at concrete inputs. -/
theorem calc_params_decode_behavior_witness :
    (decodeCalculatorParams (.obj [("b", .num 3), ("extra", .str "x")]) = .ok ⟨0, 3⟩
      ∧ callMethod "add" (some (.obj [("b", .num 3), ("extra", .str "x")]))
          = .ok (some (.num 3)))
    ∧ callMethod "divide" none = .error (.rpc calcParamsRequiredErr)
    ∧ callMethod "multiply" (some (.arr [])) = .error (.rpc calcParamsExpectedErr)
    ∧ callMethod "subtract" (some (.obj [("a", .str "x")]))
        = .error (.rpc calcParamsExpectedErr) := by
  have h1 := calc_params_decode_behavior.1 "add" (by simp [calcMethods])
    [("b", .num 3), ("extra", .str "x")] (by intro kv hkv; fin_cases hkv <;> rfl)
  have h2 := calc_params_decode_behavior.2.1 "divide" (by simp [calcMethods])
  have h3 := calc_params_decode_behavior.2.2.1 "multiply" (by simp [calcMethods])
    (.arr []) rfl
  have h4 := calc_params_decode_behavior.2.2.2 "subtract" (by simp [calcMethods])
    [("a", .str "x")] ⟨("a", .str "x"), List.mem_singleton.mpr rfl, rfl⟩
  exact ⟨⟨h1.1.trans (by rfl), h1.2.trans (by rfl)⟩, h2, h3, h4⟩

end JRPC
